import Mathlib

set_option maxRecDepth 8000

/-!
Shallow embedding of the momentumCalculator repository's data-and-scoring
engine, with theorems checking the specification's claims against it.

Conventions of the embedding:
* prices and scores are exact rationals (`ℚ`); the one genuinely irrational
  computation (a standard deviation, i.e. a square root) lives in `ℝ`;
* a pandas `NaN` is `Option.none`; a numeric cell is `Option.some`;
* a price series is a `List ℚ`, oldest first, mirroring a close-price column
  sorted ascending by trading day;
* python negative indexing `s.iloc[-(k)]` on a series of length `n` is
  `List.getD (n - k) 0`; every use below sits under the source's own length
  guard, so the default value `0` is never produced;
* dates and symbols are `ℕ`; SQL result sets are `List`s in the query's
  ORDER BY order.
-/

/-! ### Shared numeric helpers (pandas primitives used by the source) -/

/-- Last `n` elements of a list (`Series.tail(n)` / `.iloc[-n:]`). -/
def takeLast {α : Type} (n : ℕ) (l : List α) : List α := l.drop (l.length - n)

/-- Arithmetic mean (`Series.mean()`); `0` on the empty list, which the
source never reaches because every call sits under a length guard. -/
def mean (l : List ℚ) : ℚ := l.sum / (l.length : ℚ)

/-- Sample variance with `ddof = 1`, the square of `Series.std()`.
`Series.std()` itself is `Real.sqrt` of this; every comparison the source
makes against the standard deviation is a comparison against `0`, and
`std = 0 ↔ var = 0`, so guards are stated on the variance.  Lists of length
`≤ 1` (where pandas yields `NaN`) never reach this under the source's
guards. -/
def sampleVar (l : List ℚ) : ℚ :=
  (l.map (fun x => (x - mean l) ^ 2)).sum / ((l.length : ℚ) - 1)

/-- `Series.pct_change().dropna()`: elementwise `(cur - prev) / prev`,
with the leading `NaN` removed. -/
def pctChangeDropna (c : List ℚ) : List ℚ :=
  List.zipWith (fun prev cur => (cur - prev) / prev) c c.tail

/-- `Series.pct_change()` without `dropna`: the first cell is `NaN`
(`none`), kept because the source sometimes counts it in denominators. -/
def pctChangeRaw (c : List ℚ) : List (Option ℚ) :=
  match c with
  | [] => []
  | _ :: _ => none :: (pctChangeDropna c).map some

/-- Python chained/greater comparison on possibly-`NaN` cells: any
comparison against `NaN` is `False`. -/
def pygt : Option ℚ → Option ℚ → Bool
  | some x, some y => decide (y < x)
  | _, _ => false

/-- `max(0, min(1, x))` on a possibly-`NaN` float.  CPython's two-argument
`min(1, x)` keeps `1` when `x` is `NaN` (because `nan < 1` is false), and
`max(0, 1) = 1`, so a `NaN` sub-score normalizes to `1`. -/
def pyClip01 (x : Option ℚ) : ℚ :=
  match x with
  | none => 1
  | some v => max 0 (min 1 v)

/-- Real-valued variant of `pyClip01` for the volatility-adjusted branch. -/
noncomputable def pyClip01R (x : Option ℝ) : ℝ :=
  match x with
  | none => 1
  | some v => max 0 (min 1 v)

/-! ### web_app/src/momentum_calculator.py — MomentumCalculator -/

/-- `lookback_periods['momentum_12_2']`. -/
def momentum_12_2_lookback : ℕ := 180

/-- `lookback_periods['momentum_6m']`. -/
def momentum_6m_lookback : ℕ := 100

/-- `lookback_periods['momentum_3m']`. -/
def momentum_3m_lookback : ℕ := 50

/-- `lookback_periods['momentum_1m']`. -/
def momentum_1m_lookback : ℕ := 15

/-- `lookback_periods['skip_recent']`. -/
def skip_recent : ℕ := 15

/-- `MomentumCalculator.calculate_raw_momentum`: total return over
`period`; `NaN` when fewer than `period + 1` prices exist. -/
def calculate_raw_momentum (price_data : List ℚ) (period : ℕ) : Option ℚ :=
  if price_data.length < period + 1 then none
  else
    let current_price := price_data.getD (price_data.length - 1) 0
    let past_price := price_data.getD (price_data.length - (period + 1)) 0
    some ((current_price - past_price) / past_price)

/-- `MomentumCalculator.calculate_12_2_momentum`: the guard is
`len < momentum_12_2 + skip_recent` and the reference price is
`iloc[-(momentum_12_2 + skip_recent)]`. -/
def calculate_12_2_momentum (price_data : List ℚ) : Option ℚ :=
  if price_data.length < momentum_12_2_lookback + skip_recent then none
  else
    let current_price := price_data.getD (price_data.length - 1) 0
    let start_price :=
      price_data.getD (price_data.length - (momentum_12_2_lookback + skip_recent)) 0
    some ((current_price - start_price) / start_price)

/-- `MomentumCalculator.calculate_volatility_adjusted_momentum`: mean of
the last `period` returns over their sample standard deviation; `0` when
the deviation is zero; `NaN` when fewer than `period` returns exist. -/
noncomputable def calculate_volatility_adjusted_momentum
    (returns : List ℚ) (period : ℕ) : Option ℝ :=
  if returns.length < period then none
  else
    let recent_returns := takeLast period returns
    if sampleVar recent_returns = 0 then some 0
    else some ((mean recent_returns : ℝ) / Real.sqrt (sampleVar recent_returns : ℝ))

/-- `MomentumCalculator.calculate_smooth_momentum`: raw momentum over
`period` times the fraction of positive-return cells among the last
`period` cells of `pct_change()` (the leading `NaN` cell is counted in
the denominator when it falls in the window, exactly as in the source). -/
def calculate_smooth_momentum (price_data : List ℚ) (period : ℕ) : Option ℚ :=
  if price_data.length < period then none
  else
    let rolling_returns := takeLast period (pctChangeRaw price_data)
    let positive_days :=
      rolling_returns.countP (fun r => match r with | some v => decide (0 < v) | none => false)
    let total_days := rolling_returns.length
    (calculate_raw_momentum price_data period).map
      (fun total_return => total_return * ((positive_days : ℚ) / (total_days : ℚ)))

/-- Last cell of `Series.rolling(w).mean()` (default `min_periods = w`):
`NaN` when fewer than `w` cells exist, else the mean of the last `w`. -/
def smaLast (w : ℕ) (c : List ℚ) : Option ℚ :=
  if c.length < w then none else some (mean (takeLast w c))

/-- The historical frame handed to the momentum calculator, as built by
`web_app/src/data_fetcher.py`: a close column, from which that file
derives `Returns = close.pct_change()`, `SMA_20 = close.rolling(20).mean()`
and `SMA_50 = close.rolling(50).mean()`. -/
structure HistData where
  close : List ℚ

/-- The result dict of `calculate_quality_momentum_score` restricted to
the eight keys present in both the early-exit dict and the full dict.
(`momentum_12_2` and `fip_quality` are absent from the early-exit dict and
play no part in `total_score`; the former is the standalone
`calculate_12_2_momentum` above.) -/
structure QMResult where
  total_score : ℝ
  raw_momentum_6m : Option ℚ
  raw_momentum_3m : Option ℚ
  raw_momentum_1m : Option ℚ
  volatility_adjusted : Option ℝ
  smooth_momentum : Option ℚ
  consistency_score : ℚ
  trend_strength : ℚ

/-- The early-exit dict of `calculate_quality_momentum_score`: every
sub-score is the number `0`, not `NaN` and not a null. -/
def zeroQM : QMResult :=
  { total_score := 0
    raw_momentum_6m := some 0
    raw_momentum_3m := some 0
    raw_momentum_1m := some 0
    volatility_adjusted := some 0
    smooth_momentum := some 0
    consistency_score := 0
    trend_strength := 0 }

/-- `MomentumCalculator.calculate_quality_momentum_score` over a frame
with the columns produced by `web_app/src/data_fetcher.py`.  The guard
`len(hist_data) < 120` (also covering `None`/empty input) yields the
all-zero dict; otherwise sub-scores are computed, normalized and combined
with the fixed weights `0.3, 0.2, 0.25, 0.15, 0.05, 0.05`. -/
noncomputable def calculate_quality_momentum_score (h : HistData) : QMResult :=
  if h.close.length < 120 then zeroQM
  else
    let close_prices := h.close
    let returns := pctChangeDropna close_prices
    let raw_momentum_6m := calculate_raw_momentum close_prices momentum_6m_lookback
    let raw_momentum_3m := calculate_raw_momentum close_prices momentum_3m_lookback
    let raw_momentum_1m := calculate_raw_momentum close_prices momentum_1m_lookback
    let vol_adj_momentum := calculate_volatility_adjusted_momentum returns 60
    let smooth_momentum := calculate_smooth_momentum close_prices 120
    let recent_returns := takeLast 60 returns
    let consistency_score : ℚ :=
      if 60 ≤ returns.length then
        ((recent_returns.countP (fun r => decide (0 < r)) : ℚ) / (recent_returns.length : ℚ))
      else 0
    let sma_20 := smaLast 20 close_prices
    let sma_50 := smaLast 50 close_prices
    let current_price := (close_prices.getLast?).getD 0
    let trend_strength : ℚ :=
      if pygt (some current_price) sma_20 && pygt sma_20 sma_50 then 1
      else if pygt (some current_price) sma_20 || pygt (some current_price) sma_50 then 1 / 2
      else 0
    let n6 := pyClip01 (raw_momentum_6m.map (fun v => (v + 1 / 2) / 1))
    let n3 := pyClip01 (raw_momentum_3m.map (fun v => (v + 3 / 10) / (6 / 10)))
    let nsm := pyClip01 (smooth_momentum.map (fun v => (v + 3 / 10) / (6 / 10)))
    let nva := pyClip01R (vol_adj_momentum.map (fun v => (v + 1) / 2))
    let total_score : ℝ :=
      (3 / 10) * (n6 : ℝ) + (1 / 5) * (n3 : ℝ) + (1 / 4) * (nsm : ℝ) +
        (3 / 20) * nva + (1 / 20) * (consistency_score : ℝ) + (1 / 20) * (trend_strength : ℝ)
    { total_score := total_score
      raw_momentum_6m := raw_momentum_6m
      raw_momentum_3m := raw_momentum_3m
      raw_momentum_1m := raw_momentum_1m
      volatility_adjusted := vol_adj_momentum
      smooth_momentum := smooth_momentum
      consistency_score := consistency_score
      trend_strength := trend_strength }

/-! ### backend/utils/market_hours.py — MarketHours -/

/-- A current IST instant as the source reads it: `weekday` with Monday
= 0 … Sunday = 6, `seconds` since midnight, and `day` an ordinal date
used to look for today's price bars. -/
structure ISTInstant where
  weekday : ℕ
  seconds : ℕ
  day : ℕ

/-- `MARKET_OPEN_TIME` (09:15 IST) in seconds since midnight. -/
def marketOpenSec : ℕ := 9 * 3600 + 15 * 60

/-- `MARKET_CLOSE_TIME` (15:30 IST) in seconds since midnight. -/
def marketCloseSec : ℕ := 15 * 3600 + 30 * 60

/-- `MarketHours.is_market_open`: weekday and within `[open, close]`. -/
def is_market_open (now : ISTInstant) : Bool :=
  if 5 ≤ now.weekday then false
  else decide (marketOpenSec ≤ now.seconds) && decide (now.seconds ≤ marketCloseSec)

/-- `MarketHours.should_calculate_momentum`: false on weekends, false
while the market is open, true otherwise. -/
def should_calculate_momentum (now : ISTInstant) : Bool :=
  if 5 ≤ now.weekday then false
  else if is_market_open now then false
  else true

/-- `MarketHours.should_update_data`: false on weekends, else the
negation of `is_market_open`. -/
def should_update_data (now : ISTInstant) : Bool :=
  if 5 ≤ now.weekday then false
  else !is_market_open now

/-! ### backend/models/data_fetcher.py — pending-operations ledger -/

/-- The `operation_type` column of `pending_operations`. -/
inductive OpKind
  | prices
  | attributes
deriving DecidableEq

/-- One row of the `pending_operations` table (the claim-relevant
columns). -/
structure PendingRow where
  stock : ℕ
  op : OpKind
  retry_count : ℕ
deriving DecidableEq

/-- The retry limit the pollers and ledger queries use (`5`). -/
def MAX_RETRIES : ℕ := 5

/-- `DataUpdater.add_to_pending_prices`: upsert on `(stock, 'prices')`.
`ON CONFLICT` increments `retry_count` unconditionally — the SQL carries
no cap; a fresh row starts at `retry_count = 0`. -/
def add_to_pending_prices (pend : List PendingRow) (s : ℕ) : List PendingRow :=
  if pend.any (fun r => r.stock = s && r.op = OpKind.prices) then
    pend.map (fun r =>
      if r.stock = s && r.op = OpKind.prices then
        { r with retry_count := r.retry_count + 1 }
      else r)
  else pend ++ [⟨s, OpKind.prices, 0⟩]

/-- `DataUpdater.get_exhausted_retry_stocks`: rows of the given kind with
`retry_count ≥ 5`. -/
def get_exhausted_retry_stocks (pend : List PendingRow) (op : OpKind) : List ℕ :=
  (pend.filter (fun r => r.op = op && MAX_RETRIES ≤ r.retry_count)).map (fun r => r.stock)

/-- `PricePoller._get_pending_price_stocks`: `'prices'` rows with
`retry_count < 5` (the source of waves 2..5). -/
def get_pending_price_stocks (pend : List PendingRow) : List ℕ :=
  (pend.filter (fun r => r.op = OpKind.prices && r.retry_count < MAX_RETRIES)).map
    (fun r => r.stock)

/-! ### services/data-service/price_poller.py — PricePoller -/

/-- One `stockmetadata` row together with the dates for which a
`tickerprice` bar exists for that stock. -/
structure MetaRow where
  stock : ℕ
  bar_dates : List ℕ
deriving DecidableEq

/-- `PricePoller._get_stocks_needing_price_update`: metadata stocks with
no bar for today or yesterday.  The SQL carries no condition on
`pending_operations`, so exhausted stocks are not excluded here. -/
def get_stocks_needing_price_update (meta : List MetaRow) (today yesterday : ℕ) : List ℕ :=
  (meta.filter (fun m => !(m.bar_dates.contains today || m.bar_dates.contains yesterday))).map
    (fun m => m.stock)

/-- `PricePoller._has_run_today`: a count query — true iff some metadata
stock already has a bar dated `d`. -/
def has_run_today (meta : List MetaRow) (d : ℕ) : Bool :=
  0 < meta.countP (fun m => m.bar_dates.contains d)

/-- `PricePoller._should_run_price_update`: after 15:30 IST and not yet
run today.  The source consults only the clock time and the bar count;
it never inspects the weekday. -/
def should_run_price_update (now : ISTInstant) (meta : List MetaRow) : Bool :=
  decide (marketCloseSec ≤ now.seconds) && !has_run_today meta now.day

/-! ### backend/models/momentum_storage.py — MomentumStorage -/

/-- The loop body of `get_best_momentum_date` over the grouped rows
`(calculation_date, stock_count)`, carrying `max_stocks` and `best_date`;
a row with more than 1000 stocks returns immediately. -/
def bestLoop : List (ℕ × ℕ) → ℕ → Option ℕ → Option ℕ
  | [], _, best_date => best_date
  | (d, c) :: rest, max_stocks, best_date =>
    let max_stocks' := if max_stocks < c then c else max_stocks
    let best_date' := if max_stocks < c then some d else best_date
    if 1000 < c then some d else bestLoop rest max_stocks' best_date'

/-- `MomentumStorage.get_best_momentum_date`: rows are all
`(calculation_date, COUNT(*))` groups ordered by date descending — the
query has no `LIMIT`.  Returns `None` on an empty result, else runs the
scan. -/
def get_best_momentum_date (rows : List (ℕ × ℕ)) : Option ℕ :=
  if rows.isEmpty then none else bestLoop rows 0 none

/-- Largest `stock_count` in a grouped result set. -/
def maxCount (rows : List (ℕ × ℕ)) : ℕ :=
  rows.foldr (fun r acc => max r.2 acc) 0

/-- Modelled from the spec sentence as amended: the most recent date whose
count exceeds 1000 (rows arrive date-descending, so the first such row);
otherwise the first row — hence the most recent date — attaining the
maximal count over ALL persisted dates; `none` only for an empty set. -/
def specBestDate (rows : List (ℕ × ℕ)) : Option ℕ :=
  match rows.find? (fun r => 1000 < r.2) with
  | some r => some r.1
  | none => (rows.find? (fun r => rows.all (fun r' => r'.2 ≤ r.2))).map (fun r => r.1)

/-! ### backend/models/strategy_base.py and strategies/ -/

/-- One `tickerprice` bar as the strategies read it (`open` and `volume`
are not consulted by any embedded computation and are omitted). -/
structure Bar where
  date : ℕ
  high : ℚ
  low : ℚ
  close : ℚ
deriving DecidableEq

/-- The metadata row a strategy sees for one stock: its symbol and the
nullable `current_price` column. -/
structure StockInfoR where
  stock : ℕ
  current_price : Option ℚ

/-- Insert a bar into a date-ascending list (helper for `sort_values`). -/
def insertByDate (b : Bar) : List Bar → List Bar
  | [] => [b]
  | c :: cs => if c.date ≤ b.date then c :: insertByDate b cs else b :: c :: cs

/-- `DataFrame.sort_values('date')` as a stable insertion sort. -/
def sortByDate : List Bar → List Bar
  | [] => []
  | b :: bs => insertByDate b (sortByDate bs)

/-- `Series.max()` over a nonempty column (`0` on empty, unreachable under
the source's guards). -/
def maxOf : List ℚ → ℚ
  | [] => 0
  | x :: xs => xs.foldl max x

/-- `Series.min()` over a nonempty column. -/
def minOf : List ℚ → ℚ
  | [] => 0
  | x :: xs => xs.foldl min x

/-- `series.iloc[-1]` on a close column (`0` on empty, unreachable under
the source's guards). -/
def lastClose (l : List Bar) : ℚ :=
  match l.getLast? with
  | some b => b.close
  | none => 0

/-- `BaseStrategy.validate_data_sufficiency`: false when the frame is
missing (`None`), empty, or shorter than the strategy's minimum. -/
def validate_data_sufficiency (price_data : Option (List Bar)) (min_required : ℕ) : Bool :=
  match price_data with
  | none => false
  | some l => !l.isEmpty && decide (min_required ≤ l.length)

/-- A result row of `Week52BreakoutStrategy.calculate_scores` for one
stock.  The source column `breakout_ratio` is rendered `breakoutFrac`
here; it always equals `score`. -/
structure Week52Row where
  score : Option ℚ
  current_price : Option ℚ
  week52_high : Option ℚ
  week52_low : Option ℚ
  breakoutFrac : Option ℚ
  insufficient_data : Bool
deriving DecidableEq

/-- The null row the 52-week strategy emits on missing/short data. -/
def week52Insufficient : Week52Row :=
  ⟨none, none, none, none, none, true⟩

/-- Loop body of `Week52BreakoutStrategy.calculate_scores` for one stock:
`none` price data models `stock not in price_data`. -/
def week52_scoreStock (info : StockInfoR) (price_data : Option (List Bar)) : Week52Row :=
  if !validate_data_sufficiency price_data 252 then week52Insufficient
  else
    match price_data with
    | none => week52Insufficient
    | some stock_prices =>
      let recent_data := takeLast 252 (sortByDate stock_prices)
      if recent_data.length < 50 then week52Insufficient
      else
        let week52_high := maxOf (recent_data.map (fun b => b.high))
        let week52_low := minOf (recent_data.map (fun b => b.low))
        let current_price := info.current_price.getD (lastClose recent_data)
        let breakout : ℚ :=
          if week52_high = week52_low then 1 / 2
          else (current_price - week52_low) / (week52_high - week52_low)
        ⟨some breakout, some current_price, some week52_high, some week52_low,
          some breakout, false⟩

/-- A result row of `MACrossoverStrategy.calculate_scores` for one stock
(`crossover_ratio` rendered `crossoverFrac`). -/
structure MARow where
  score : Option ℚ
  ma_50 : Option ℚ
  ma_200 : Option ℚ
  crossoverFrac : Option ℚ
  insufficient_data : Bool
deriving DecidableEq

/-- The null row the MA-crossover strategy emits on missing/short data. -/
def maInsufficient : MARow := ⟨none, none, none, none, true⟩

/-- Loop body of `MACrossoverStrategy.calculate_scores` for one stock. -/
def ma_crossover_scoreStock (price_data : Option (List Bar)) : MARow :=
  if !validate_data_sufficiency price_data 200 then maInsufficient
  else
    match price_data with
    | none => maInsufficient
    | some stock_prices =>
      let closes := (sortByDate stock_prices).map (fun b => b.close)
      let latest_ma_50 := smaLast 50 closes
      let latest_ma_200 := smaLast 200 closes
      match latest_ma_50, latest_ma_200 with
      | some m50, some m200 =>
        let crossover : ℚ := if m200 = 0 then 0 else (m50 - m200) / m200
        ⟨some crossover, some m50, some m200, some crossover, false⟩
      | _, _ => maInsufficient

/-- A result row of `LowVolatilityStrategy.calculate_scores` for one
stock; volatilities are real (they are square roots). -/
structure LowVolRow where
  score : Option ℝ
  daily_volatility : Option ℝ
  annual_volatility : Option ℝ
  insufficient_data : Bool

/-- The null row the low-volatility strategy emits on missing/short
data. -/
def lowVolInsufficient : LowVolRow := ⟨none, none, none, true⟩

/-- Loop body of `LowVolatilityStrategy.calculate_scores` for one
stock. -/
noncomputable def low_volatility_scoreStock (price_data : Option (List Bar)) : LowVolRow :=
  if !validate_data_sufficiency price_data 252 then lowVolInsufficient
  else
    match price_data with
    | none => lowVolInsufficient
    | some stock_prices =>
      let recent_data := takeLast 252 (sortByDate stock_prices)
      if recent_data.length < 50 then lowVolInsufficient
      else
        let daily_returns := pctChangeDropna (recent_data.map (fun b => b.close))
        if daily_returns.length < 20 then lowVolInsufficient
        else
          let daily_volatility : ℝ := Real.sqrt (sampleVar daily_returns : ℝ)
          let annual_volatility : ℝ := daily_volatility * Real.sqrt 252
          ⟨some (-daily_volatility), some daily_volatility, some annual_volatility, false⟩

/-- A result row of `MeanReversionStrategy.calculate_scores` for one
stock. -/
structure MeanRevRow where
  score : Option ℝ
  current_price : Option ℚ
  ma_200 : Option ℚ
  z_score : Option ℝ
  insufficient_data : Bool

/-- The null row the mean-reversion strategy emits on missing/short data
or a zero price deviation. -/
def meanRevInsufficient : MeanRevRow := ⟨none, none, none, none, true⟩

/-- Loop body of `MeanReversionStrategy.calculate_scores` for one stock.
`price_std == 0` (equivalently zero variance) yields the null row, as the
source's `pd.isna`/zero check does. -/
noncomputable def mean_reversion_scoreStock
    (info : StockInfoR) (price_data : Option (List Bar)) : MeanRevRow :=
  if !validate_data_sufficiency price_data 200 then meanRevInsufficient
  else
    match price_data with
    | none => meanRevInsufficient
    | some stock_prices =>
      let recent_data := takeLast 200 (sortByDate stock_prices)
      if recent_data.length < 200 then meanRevInsufficient
      else
        let closes := recent_data.map (fun b => b.close)
        let latest_ma_200 := mean (takeLast 200 closes)
        let priceVar := sampleVar closes
        let current_price := info.current_price.getD (lastClose recent_data)
        if priceVar = 0 then meanRevInsufficient
        else
          let price_std : ℝ := Real.sqrt (priceVar : ℝ)
          let z : ℝ := ((current_price : ℝ) - (latest_ma_200 : ℝ)) / price_std
          ⟨some z, some current_price, some latest_ma_200, some z, false⟩

/-! ### services/strategy-service/main.py — execute_pipeline -/

/-- The `strategyId` of one pipeline stage; `other` is the source's
default branch for an unrecognized id. -/
inductive StrategyId
  | momentum
  | week52_breakout
  | mean_reversion
  | low_volatility
  | other
deriving DecidableEq

/-- One entry of the request's `strategies` list. -/
structure StageConfig where
  strategy_id : StrategyId
  market_cap_limit : ℕ
  output_count : ℕ
deriving DecidableEq

/-- The per-stage record the executor appends to `results`. -/
structure StageResult where
  strategy_id : StrategyId
  input_symbols : List ℕ
  input_count : ℕ
  output_symbols : List ℕ
  output_count_actual : ℕ
  configured_output : ℕ
deriving DecidableEq

/-- The executor's environment: the stage-1 market-cap query and, for each
scored branch, the per-symbol score each strategy computes from the price
store (`none` models the branch's `continue` — no price data, or the
symbol filtered out of `strategy_scores`). -/
structure PipelineEnv where
  topByMarketCap : ℕ → List ℕ
  score : StrategyId → ℕ → Option ℚ

/-- Insert into a score-descending list, keeping earlier equals first, as
the source's stable descending sorts do. -/
def insertByScoreDesc (x : ℕ × ℚ) : List (ℕ × ℚ) → List (ℕ × ℚ)
  | [] => [x]
  | y :: ys => if y.2 < x.2 then x :: y :: ys else y :: insertByScoreDesc x ys

/-- `sort(key=score, reverse=True)` / `sort_values('score',
ascending=False)` as a stable insertion sort. -/
def sortByScoreDesc : List (ℕ × ℚ) → List (ℕ × ℚ)
  | [] => []
  | x :: xs => insertByScoreDesc x (sortByScoreDesc xs)

/-- One stage body of `execute_pipeline`: the four scored branches build
`(stock, score)` rows over the universe, sort descending and keep the top
`output_count`; the default branch is `stocks_df.head(output_count)`. -/
def stageOutput (env : PipelineEnv) (cfg : StageConfig) (input_univ : List ℕ) : List ℕ :=
  match cfg.strategy_id with
  | StrategyId.other => input_univ.take cfg.output_count
  | sid =>
    let scored := input_univ.filterMap (fun s => (env.score sid s).map (fun v => (s, v)))
    ((sortByScoreDesc scored).take cfg.output_count).map (fun p => p.1)

/-- The stage loop of `execute_pipeline`: the first stage draws its
universe from the market-cap query, later stages from the previous
output; an empty `current_stocks` at a later stage is the source's
`break`. Returns the per-stage records and the final stock list. -/
def runStages (env : PipelineEnv) :
    List StageConfig → Bool → List ℕ → List StageResult × List ℕ
  | [], _, current => ([], current)
  | cfg :: rest, isFirst, current =>
    if !isFirst && current.isEmpty then ([], current)
    else
      let input_univ := if isFirst then env.topByMarketCap cfg.market_cap_limit else current
      let out := stageOutput env cfg input_univ
      let next := runStages env rest false out
      (⟨cfg.strategy_id, input_univ, input_univ.length, out, out.length, cfg.output_count⟩
          :: next.1,
        next.2)

/-- `execute_pipeline`: run all stages; with no stages the final list is
empty (`current_stocks` is still `None` at the end of the source). -/
def execute_pipeline (env : PipelineEnv) (stages : List StageConfig) :
    List StageResult × List ℕ :=
  runStages env stages true []

/-! ### Concrete inputs used by counterexamples and witnesses -/

/-- A 196-day close series: `1` followed by 195 copies of `2`. -/
def c1series : List ℚ := 1 :: List.replicate 195 2

/-- A flat 260-day close series at price 100 (scenario S2). -/
def flatHist : HistData := ⟨List.replicate 260 100⟩

/-- 31 persisted score dates, newest first: dates `40, 39, …, 11` with
1000-or-fewer rows each (count 1), and an oldest date `10` with count 2. -/
def c3rows : List (ℕ × ℕ) := (List.range 30).map (fun i => (40 - i, 1)) ++ [(10, 2)]

/-- A Saturday instant at 15:40 IST. -/
def saturdayNow : ISTInstant := ⟨5, 15 * 3600 + 40 * 60, 7⟩

/-- A Monday instant at 08:00 IST, before the 09:15 open. -/
def mondayMorning : ISTInstant := ⟨0, 8 * 3600, 3⟩

/-- A store with one stock that has no price bars at all. -/
def c4meta : List MetaRow := [⟨1, []⟩]

/-- A pending ledger holding stock `7` at the retry limit for prices. -/
def c2pend : List PendingRow := [⟨7, OpKind.prices, 5⟩]

/-- Metadata where stock `7` has no bar for today (100) or yesterday
(99). -/
def c2meta : List MetaRow := [⟨7, [90]⟩]

/-- A constant 252-bar history: every bar has high 10, low 5, close 7. -/
def c8bars : List Bar := List.replicate 252 ⟨0, 10, 5, 7⟩

/-- Metadata for the 52-week witness: current price 7 from metadata. -/
def c8info : StockInfoR := ⟨1, some 7⟩

/-- Pipeline witness environment: stage 1 draws `[0, …, n-1]`; every
strategy scores only symbol `1`, with score `1`. -/
def c9env : PipelineEnv :=
  ⟨fun n => List.range n, fun _ s => if s = 1 then some 1 else none⟩

/-- Two-stage pipeline whose stages both have `output_count = 1`. -/
def c9stages : List StageConfig :=
  [⟨StrategyId.momentum, 3, 1⟩, ⟨StrategyId.week52_breakout, 0, 1⟩]

/-! ### General helper lemmas -/

/-- Reading inside a replicated list. -/
theorem getD_replicate {c : ℚ} {n i : ℕ} (h : i < n) :
    (List.replicate n c).getD i 0 = c := by
  rw [List.getD_eq_getElem _ _ (by simpa using h)]
  simp

/-- Length of `takeLast`. -/
theorem takeLast_length {α : Type} (n : ℕ) (l : List α) :
    (takeLast n l).length = min n l.length := by
  simp [takeLast]
  omega

/-- `takeLast` of a replicated list. -/
theorem takeLast_replicate {α : Type} (k n : ℕ) (c : α) :
    takeLast k (List.replicate n c) = List.replicate (min k n) c := by
  simp [takeLast, List.drop_replicate]
  omega

/-- `zipWith` over equally replicated lists of off-by-one lengths. -/
theorem zipWith_replicate_pred {α : Type} (f : α → α → α) :
    ∀ (n : ℕ) (c : α),
      List.zipWith f (List.replicate n c) (List.replicate (n - 1) c) =
        List.replicate (n - 1) (f c c)
  | 0, _ => rfl
  | 1, _ => rfl
  | n + 2, c => by
    have ih := zipWith_replicate_pred f (n + 1) c
    have e1 : n + 1 - 1 = n := rfl
    rw [e1] at ih
    show List.zipWith f (List.replicate (n + 2) c) (List.replicate (n + 1) c) =
      List.replicate (n + 1) (f c c)
    rw [List.replicate_succ (n := n + 1)]
    nth_rewrite 2 [List.replicate_succ (n := n)]
    rw [List.zipWith_cons_cons, ih, List.replicate_succ (n := n)]

/-- Daily returns of a constant series are all zero. -/
theorem pctChangeDropna_replicate (n : ℕ) (c : ℚ) :
    pctChangeDropna (List.replicate n c) = List.replicate (n - 1) 0 := by
  have ht : (List.replicate n c).tail = List.replicate (n - 1) c := by
    cases n <;> simp
  rw [pctChangeDropna, ht]
  have := zipWith_replicate_pred (fun prev cur => (cur - prev) / prev) n c
  rw [this]
  simp

/-- Raw `pct_change` of a constant series: a leading `NaN` then zeros. -/
theorem pctChangeRaw_replicate (n : ℕ) (c : ℚ) :
    pctChangeRaw (List.replicate (n + 1) c) = none :: List.replicate n (some 0) := by
  rw [List.replicate_succ, pctChangeRaw, ← List.replicate_succ, pctChangeDropna_replicate]
  simp

/-- Mean of a constant series. -/
theorem mean_replicate (n : ℕ) (c : ℚ) (h : 0 < n) :
    mean (List.replicate n c) = c := by
  rw [mean]
  simp only [List.sum_replicate, List.length_replicate, nsmul_eq_mul]
  rw [mul_comm, mul_div_assoc, div_self (by exact_mod_cast h.ne'), mul_one]

/-- A constant series has zero sample variance. -/
theorem sampleVar_replicate (n : ℕ) (c : ℚ) : sampleVar (List.replicate n c) = 0 := by
  cases n with
  | zero => simp [sampleVar, mean]
  | succ k =>
    rw [sampleVar, mean_replicate _ _ (Nat.succ_pos k)]
    simp

/-- Counting inside a replicated list. -/
theorem countP_replicate {α : Type} (p : α → Bool) (n : ℕ) (c : α) :
    (List.replicate n c).countP p = if p c then n else 0 := by
  induction n with
  | zero => simp
  | succ k ih =>
    rw [List.replicate_succ, List.countP_cons, ih]
    by_cases h : p c <;> simp [h]

/-- Last element of a replicated list. -/
theorem getLast?_replicate {α : Type} (n : ℕ) (c : α) :
    (List.replicate (n + 1) c).getLast? = some c := by
  induction n with
  | zero => simp
  | succ k ih =>
    rw [List.replicate_succ, List.getLast?_cons, ih]
    simp

/-- Raw momentum of a constant series is zero once the guard passes. -/
theorem raw_momentum_replicate (n p : ℕ) (c : ℚ) (h : p + 1 ≤ n) :
    calculate_raw_momentum (List.replicate n c) p = some 0 := by
  rw [calculate_raw_momentum]
  rw [if_neg (by simpa using by omega)]
  simp only [List.length_replicate]
  rw [getD_replicate (by omega), getD_replicate (by omega)]
  simp

/-! ### C1 — the 12-2 momentum reference price -/

/-- C1, counterexample.  On the 196-price series `c1series` the claim's
formula `(P[n-1] − P[n-1-(L+skip)]) / P[n-1-(L+skip)]` (reference price
`P[0] = 1`, i.e. 195 positions before the last) yields `1`, while
`calculate_12_2_momentum` — which reads `iloc[-(L+skip)] = P[1]`, only 194
positions before the last — yields `0`.  So the claim is false at this
input. -/
theorem c1_counterexample :
    c1series.length = momentum_12_2_lookback + skip_recent + 1 ∧
      calculate_12_2_momentum c1series = some 0 ∧
      (c1series.getD (c1series.length - 1) 0 - c1series.getD 0 0) / c1series.getD 0 0 = 1 ∧
      some (0 : ℚ) ≠ some 1 := by
  have hlen : c1series.length = 196 := by simp [c1series]
  refine ⟨by simpa [momentum_12_2_lookback, skip_recent] using hlen, ?_, ?_, by simp⟩
  · rw [calculate_12_2_momentum, if_neg (by simp [hlen, momentum_12_2_lookback, skip_recent])]
    rw [hlen]
    show some ((c1series.getD 195 0 - c1series.getD 1 0) / c1series.getD 1 0) = some 0
    have h195 : c1series.getD 195 0 = 2 := by
      simp [c1series]
    have h1 : c1series.getD 1 0 = 2 := by
      simp [c1series]
    rw [h195, h1]
    norm_num
  · rw [hlen]
    show (c1series.getD 195 0 - c1series.getD 0 0) / c1series.getD 0 0 = 1
    have h195 : c1series.getD 195 0 = 2 := by
      simp [c1series]
    have h0 : c1series.getD 0 0 = 1 := by simp [c1series]
    rw [h195, h0]
    norm_num

/-- C1, amended: for a close series with `n ≥ L_12_2 + skip = 195`
prices, the 12-2 momentum equals
`(P[n-1] − P[n-195]) / P[n-195]` — the reference price sits 194 positions
before the last price, and the guard requires only 195 prices, not
196. -/
theorem c1_amended (p : List ℚ) (n : ℕ) (hn : p.length = n)
    (h : momentum_12_2_lookback + skip_recent ≤ n) :
    calculate_12_2_momentum p =
      some ((p.getD (n - 1) 0 - p.getD (n - (momentum_12_2_lookback + skip_recent)) 0) /
        p.getD (n - (momentum_12_2_lookback + skip_recent)) 0) := by
  subst hn
  rw [calculate_12_2_momentum, if_neg (by omega)]

/-- C1 witness: the amended theorem applied to the concrete series. -/
theorem c1_amended_witness :
    momentum_12_2_lookback + skip_recent ≤ 196 ∧
      calculate_12_2_momentum c1series =
        some ((c1series.getD 195 0 - c1series.getD 1 0) / c1series.getD 1 0) := by
  refine ⟨by norm_num [momentum_12_2_lookback, skip_recent], ?_⟩
  have h := c1_amended c1series 196 (by simp [c1series])
    (by norm_num [momentum_12_2_lookback, skip_recent])
  simpa [momentum_12_2_lookback, skip_recent] using h

/-! ### C2 — retry exhaustion for price updates -/

/-- C2: the code evaluated at the failing input.  Stock `7` sits in
`pending_operations('prices')` at `retry_count = MAX_RETRIES = 5`: it is
reported by `Exhausted('prices')` and excluded from the waves-2..5 pool,
yet `_get_stocks_needing_price_update` — which drives wave 1 of every
cycle and carries no pending-operations condition — still selects it, and
a failed attempt drives its `retry_count` to `6 > MAX_RETRIES`. -/
theorem c2_exhausted_not_skipped :
    get_exhausted_retry_stocks c2pend OpKind.prices = [7] ∧
      get_pending_price_stocks c2pend = [] ∧
      get_stocks_needing_price_update c2meta 100 99 = [7] ∧
      add_to_pending_prices c2pend 7 = [⟨7, OpKind.prices, 6⟩] ∧
      MAX_RETRIES < 6 := by
  refine ⟨?_, ?_, ?_, ?_, ?_⟩ <;> decide

/-! ### C4 — price-poller scheduling gate -/

/-- C4, counterexample: at 15:40 IST on a Saturday with no bar stored for
the day, `_should_run_price_update` returns true — the source checks only
the clock and the bar count, so the claim's weekday condition does not
hold and the cycle can start on a weekend. -/
theorem c4_counterexample :
    should_run_price_update saturdayNow c4meta = true ∧ 5 ≤ saturdayNow.weekday := by
  refine ⟨?_, ?_⟩ <;> decide

/-- C4, amended: the update cycle starts iff the current IST time is at
or past market close (15:30) and no metadata stock has a price bar for
today — with no weekday condition at all. -/
theorem c4_amended (now : ISTInstant) (meta : List MetaRow) :
    should_run_price_update now meta = true ↔
      (marketCloseSec ≤ now.seconds ∧ ∀ m ∈ meta, now.day ∉ m.bar_dates) := by
  rw [should_run_price_update]
  simp only [Bool.and_eq_true, decide_eq_true_eq, Bool.not_eq_true']
  rw [has_run_today]
  simp only [decide_eq_false_iff_not, Nat.not_lt, Nat.le_zero, List.countP_eq_zero]
  simp

/-! ### C5 — momentum/data-update gating by market hours -/

/-- C5, counterexample: on a Monday at 08:00 IST — a weekday morning
before the 09:15 open — both `should_calculate_momentum` and
`should_update_data` return true, where the claim requires false. -/
theorem c5_counterexample :
    should_calculate_momentum mondayMorning = true ∧
      should_update_data mondayMorning = true ∧
      mondayMorning.weekday = 0 ∧ mondayMorning.seconds < marketOpenSec := by
  refine ⟨?_, ?_, ?_, ?_⟩ <;> decide

/-- C5, amended: both predicates agree, and they are true iff the
instant is a weekday outside the market session — before the 09:15 open
or after the 15:30 close — not only post-close. -/
theorem c5_amended (now : ISTInstant) :
    (should_calculate_momentum now = true ↔
      (now.weekday < 5 ∧ (now.seconds < marketOpenSec ∨ marketCloseSec < now.seconds))) ∧
      should_update_data now = should_calculate_momentum now := by
  constructor
  · rw [should_calculate_momentum, is_market_open]
    by_cases hw : 5 ≤ now.weekday
    · simp only [hw, if_true]
      constructor
      · intro h
        exact absurd h (by simp)
      · intro h
        omega
    · simp only [hw, if_false]
      by_cases ho : marketOpenSec ≤ now.seconds ∧ now.seconds ≤ marketCloseSec
      · simp only [decide_eq_true_eq] at *
        rw [if_pos (by simp [ho.1, ho.2])]
        constructor
        · intro h
          exact absurd h (by simp)
        · intro h
          omega
      · rw [if_neg (by simp only [Bool.and_eq_true, decide_eq_true_eq]; exact ho)]
        simp only [true_iff]
        refine ⟨by omega, by omega⟩
  · rw [should_update_data, should_calculate_momentum]
    by_cases hw : 5 ≤ now.weekday
    · simp [hw]
    · simp only [hw, if_false]
      by_cases ho : is_market_open now = true
      · simp [ho]
      · simp only [Bool.not_eq_true] at ho
        simp [ho]

/-! ### C3 — best score date selection -/

/-- Every count in a grouped result is bounded by `maxCount`. -/
theorem le_maxCount (rows : List (ℕ × ℕ)) : ∀ r ∈ rows, r.2 ≤ maxCount rows := by
  induction rows with
  | nil => simp
  | cons a l ih =>
    intro r hr
    rcases List.mem_cons.mp hr with h | h
    · subst h
      simp [maxCount, le_max_iff]
    · have := ih r h
      simp only [maxCount, List.foldr_cons] at *
      omega

/-- `maxCount` is bounded by any common upper bound of the counts. -/
theorem maxCount_le (rows : List (ℕ × ℕ)) (k : ℕ) (h : ∀ r ∈ rows, r.2 ≤ k) :
    maxCount rows ≤ k := by
  induction rows with
  | nil => simp [maxCount]
  | cons a l ih =>
    have ha := h a (by simp)
    have hl := ih (fun r hr => h r (by simp [hr]))
    simp only [maxCount, List.foldr_cons] at *
    omega

/-- `find?` only depends on the predicate's values on the list. -/
theorem find?_congr {α : Type} (l : List α) (p q : α → Bool)
    (h : ∀ x ∈ l, p x = q x) : l.find? p = l.find? q := by
  induction l with
  | nil => rfl
  | cons a t ih =>
    have ha := h a (by simp)
    rw [List.find?_cons, List.find?_cons, ha]
    cases q a with
    | true => rfl
    | false => exact ih (fun x hx => h x (by simp [hx]))

/-- The scan of `get_best_momentum_date`, characterized: it returns the
first row whose count exceeds 1000 if any, else — when some count beats
the carried maximum — the first row attaining the overall maximal count,
else the carried best. -/
theorem bestLoop_eq (rows : List (ℕ × ℕ)) : ∀ (m : ℕ) (b : Option ℕ),
    bestLoop rows m b =
      match rows.find? (fun r => 1000 < r.2) with
      | some r => some r.1
      | none =>
        if m < maxCount rows then
          (rows.find? (fun r => r.2 = maxCount rows)).map (fun r => r.1)
        else b := by
  induction rows with
  | nil => intro m b; simp [bestLoop, maxCount]
  | cons a l ih =>
    intro m b
    obtain ⟨d, c⟩ := a
    by_cases h1000 : 1000 < c
    · rw [bestLoop]
      simp only [h1000, if_true]
      rw [List.find?_cons_of_pos _ (by simpa using h1000)]
    · rw [bestLoop]
      simp only [h1000, if_false]
      rw [ih]
      rw [List.find?_cons_of_neg _ (by simpa using h1000)]
      cases hf : l.find? (fun r => 1000 < r.2) with
      | some r => rfl
      | none =>
        simp only []
        have hM : maxCount ((d, c) :: l) = max c (maxCount l) := by
          simp [maxCount]
        by_cases hmc : m < c
        · simp only [hmc, if_true]
          by_cases hcM : c < maxCount l
          · rw [if_pos (by omega), if_pos (by omega), hM]
            rw [List.find?_cons_of_neg _ (by simp; omega)]
            have : max c (maxCount l) = maxCount l := by omega
            rw [this]
          · rw [if_neg (by omega), if_pos (by omega), hM]
            have hcM' : max c (maxCount l) = c := by omega
            rw [hcM']
            rw [List.find?_cons_of_pos _ (by simp)]
            rfl
        · simp only [hmc, if_false]
          by_cases hmM : m < maxCount l
          · rw [if_pos (by omega), if_pos (by omega), hM]
            have : max c (maxCount l) = maxCount l := by omega
            rw [this]
            rw [List.find?_cons_of_neg _ (by simp; omega)]
          · rw [if_neg (by omega), if_neg (by rw [hM]; omega)]

/-- C3, counterexample.  `c3rows` holds 31 persisted dates, none with
more than 1000 rows; the highest count sits on the oldest date `10`,
which is not among the 30 most recent dates — yet
`get_best_momentum_date` returns it, because the source query has no
30-date window. -/
theorem c3_counterexample :
    get_best_momentum_date c3rows = some 10 ∧
      (∀ r ∈ c3rows, ¬ 1000 < r.2) ∧
      (∀ r ∈ c3rows.take 30, r.1 ≠ 10) ∧
      c3rows.length = 31 := by
  refine ⟨?_, ?_, ?_, ?_⟩ <;> decide

/-- C3, amended: `get_best_momentum_date` returns the most recent date
with more than 1000 score rows; if none exceeds 1000 it returns the date
with the highest row count among ALL persisted dates (most recent on
ties), not merely the last 30; it returns `none` exactly when no score
rows exist. -/
theorem c3_amended (rows : List (ℕ × ℕ)) (h : ∀ r ∈ rows, 1 ≤ r.2) :
    get_best_momentum_date rows = specBestDate rows := by
  cases rows with
  | nil => simp [get_best_momentum_date, specBestDate]
  | cons a l =>
    rw [get_best_momentum_date, if_neg (by simp), bestLoop_eq, specBestDate]
    have hpred : ∀ r ∈ a :: l,
        ((a :: l).all (fun r' => decide (r'.2 ≤ r.2))) = decide (r.2 = maxCount (a :: l)) := by
      intro r hr
      apply Bool.eq_iff_iff.mpr
      simp only [List.all_eq_true, decide_eq_true_eq]
      constructor
      · intro hall
        exact Nat.le_antisymm (le_maxCount _ r hr) (maxCount_le _ _ hall)
      · intro he r' hr'
        exact he ▸ le_maxCount _ r' hr'
    rw [find?_congr _ _ _ hpred]
    cases hf : (a :: l).find? (fun r => 1000 < r.2) with
    | some r => rfl
    | none =>
      simp only []
      have hmc : 0 < maxCount (a :: l) := by
        have := le_maxCount (a :: l) a (by simp)
        have := h a (by simp)
        omega
      rw [if_pos hmc]

/-- C3 witness: the amended theorem applied to the concrete grouped
rows. -/
theorem c3_amended_witness :
    (∀ r ∈ c3rows, 1 ≤ r.2) ∧ get_best_momentum_date c3rows = specBestDate c3rows :=
  ⟨by decide, c3_amended c3rows (by decide)⟩

/-! ### Sorting helper lemmas -/

/-- Inserting preserves length (plus one). -/
theorem length_insertByDate (b : Bar) (l : List Bar) :
    (insertByDate b l).length = l.length + 1 := by
  induction l with
  | nil => rfl
  | cons c cs ih =>
    rw [insertByDate]
    by_cases h : c.date ≤ b.date
    · simp [h, ih]
    · simp [h]

/-- Sorting preserves length. -/
theorem length_sortByDate (l : List Bar) : (sortByDate l).length = l.length := by
  induction l with
  | nil => rfl
  | cons b bs ih => rw [sortByDate, length_insertByDate, ih, List.length_cons]

/-- Inserting a bar into a run of copies of itself. -/
theorem insertByDate_replicate (b : Bar) (k : ℕ) :
    insertByDate b (List.replicate k b) = List.replicate (k + 1) b := by
  induction k with
  | zero => rfl
  | succ j ih =>
    rw [List.replicate_succ, insertByDate, if_pos (Nat.le_refl _), ih]
    rfl

/-- Sorting a constant bar list is the identity. -/
theorem sortByDate_replicate (n : ℕ) (b : Bar) :
    sortByDate (List.replicate n b) = List.replicate n b := by
  induction n with
  | zero => rfl
  | succ k ih =>
    rw [List.replicate_succ, sortByDate, ih, insertByDate_replicate]
    rfl

/-- `maxOf` of a constant column. -/
theorem maxOf_replicate (n : ℕ) (c : ℚ) : maxOf (List.replicate (n + 1) c) = c := by
  rw [List.replicate_succ, maxOf]
  induction n with
  | zero => rfl
  | succ j ih => rw [List.replicate_succ, List.foldl_cons, max_self, ih]

/-- `minOf` of a constant column. -/
theorem minOf_replicate (n : ℕ) (c : ℚ) : minOf (List.replicate (n + 1) c) = c := by
  rw [List.replicate_succ, minOf]
  induction n with
  | zero => rfl
  | succ j ih => rw [List.replicate_succ, List.foldl_cons, min_self, ih]

/-! ### C7 — empty price history across the five strategies -/

/-- C7, counterexample.  For an empty price history the quality-momentum
computation does not produce a null score with an `insufficient_data`
flag: it returns the all-zero dict, whose `total_score` is the number
`0` — so the claim fails for the momentum strategy. -/
theorem c7_counterexample :
    calculate_quality_momentum_score ⟨[]⟩ = zeroQM ∧ zeroQM.total_score = 0 := by
  constructor
  · rw [calculate_quality_momentum_score, if_pos (by simp)]
  · rfl

/-- C7, amended: on an empty price history (both for a symbol absent from
the price dict, `none`, and for an empty frame, `some []`) the four
DataFrame strategies — 52-week breakout, MA crossover, low volatility,
mean reversion — each return a null score with `insufficient_data` set;
the momentum calculator instead returns its all-zero numeric dict. -/
theorem c7_amended (info : StockInfoR) :
    (week52_scoreStock info none = week52Insufficient ∧
      week52_scoreStock info (some []) = week52Insufficient ∧
      week52Insufficient.score = none ∧ week52Insufficient.insufficient_data = true) ∧
    (ma_crossover_scoreStock none = maInsufficient ∧
      ma_crossover_scoreStock (some []) = maInsufficient ∧
      maInsufficient.score = none ∧ maInsufficient.insufficient_data = true) ∧
    (low_volatility_scoreStock none = lowVolInsufficient ∧
      low_volatility_scoreStock (some []) = lowVolInsufficient ∧
      lowVolInsufficient.score = none ∧ lowVolInsufficient.insufficient_data = true) ∧
    (mean_reversion_scoreStock info none = meanRevInsufficient ∧
      mean_reversion_scoreStock info (some []) = meanRevInsufficient ∧
      meanRevInsufficient.score = none ∧ meanRevInsufficient.insufficient_data = true) ∧
    calculate_quality_momentum_score ⟨[]⟩ = zeroQM := by
  refine ⟨⟨?_, ?_, rfl, rfl⟩, ⟨?_, ?_, rfl, rfl⟩, ⟨?_, ?_, rfl, rfl⟩, ⟨?_, ?_, rfl, rfl⟩, ?_⟩
  · rw [week52_scoreStock]
    simp [validate_data_sufficiency]
  · rw [week52_scoreStock]
    simp [validate_data_sufficiency]
  · rw [ma_crossover_scoreStock]
    simp [validate_data_sufficiency]
  · rw [ma_crossover_scoreStock]
    simp [validate_data_sufficiency]
  · rw [low_volatility_scoreStock]
    simp [validate_data_sufficiency]
  · rw [low_volatility_scoreStock]
    simp [validate_data_sufficiency]
  · rw [mean_reversion_scoreStock]
    simp [validate_data_sufficiency]
  · rw [mean_reversion_scoreStock]
    simp [validate_data_sufficiency]
  · rw [calculate_quality_momentum_score, if_pos (by simp)]

/-! ### C8 — 52-week breakout formula -/

/-- C8: with at least 252 bars the 52-week strategy scores the stock
(no `insufficient_data`), and the score is
`(current_price − low52) / (high52 − low52)` where `high52`/`low52` are
the extreme high/low over the last 252 bars of the date-sorted history
and `current_price` is the metadata price (falling back to the last
close); when `high52 = low52` the score is exactly `1/2`. -/
theorem c8_week52_formula (info : StockInfoR) (bars : List Bar)
    (h : 252 ≤ bars.length) :
    (week52_scoreStock info (some bars)).insufficient_data = false ∧
      (maxOf ((takeLast 252 (sortByDate bars)).map (fun b => b.high)) =
          minOf ((takeLast 252 (sortByDate bars)).map (fun b => b.low)) →
        (week52_scoreStock info (some bars)).score = some (1 / 2)) ∧
      (maxOf ((takeLast 252 (sortByDate bars)).map (fun b => b.high)) ≠
          minOf ((takeLast 252 (sortByDate bars)).map (fun b => b.low)) →
        (week52_scoreStock info (some bars)).score =
          some ((info.current_price.getD (lastClose (takeLast 252 (sortByDate bars))) -
              minOf ((takeLast 252 (sortByDate bars)).map (fun b => b.low))) /
            (maxOf ((takeLast 252 (sortByDate bars)).map (fun b => b.high)) -
              minOf ((takeLast 252 (sortByDate bars)).map (fun b => b.low))))) := by
  have hne : bars.isEmpty = false := by
    cases bars with
    | nil => simp at h
    | cons a t => rfl
  have hval : validate_data_sufficiency (some bars) 252 = true := by
    rw [validate_data_sufficiency]
    simp [hne, h]
  have hlen : (takeLast 252 (sortByDate bars)).length = 252 := by
    rw [takeLast_length, length_sortByDate]
    omega
  have h50 : ¬ ((takeLast 252 (sortByDate bars)).length < 50) := by
    rw [hlen]
    norm_num
  rw [week52_scoreStock, hval]
  simp only [Bool.not_true, Bool.false_eq_true, if_false]
  rw [if_neg h50]
  refine ⟨rfl, fun he => ?_, fun he => ?_⟩
  · rw [if_pos he]
  · rw [if_neg he]

/-- C8 witness: the formula theorem applied to a concrete 252-bar
history with high 10, low 5 and metadata price 7 gives score
`(7 − 5) / (10 − 5) = 2/5`. -/
theorem c8_week52_witness :
    252 ≤ c8bars.length ∧
      (week52_scoreStock c8info (some c8bars)).score = some (2 / 5) := by
  have hlen : (252 : ℕ) ≤ c8bars.length := by
    rw [c8bars, List.length_replicate]
  refine ⟨hlen, ?_⟩
  have htl : takeLast 252 (sortByDate c8bars) = c8bars := by
    rw [c8bars, sortByDate_replicate, takeLast_replicate]
    norm_num
  have hmax : maxOf ((takeLast 252 (sortByDate c8bars)).map (fun b => b.high)) = 10 := by
    rw [htl, c8bars, List.map_replicate]
    exact maxOf_replicate 251 10
  have hmin : minOf ((takeLast 252 (sortByDate c8bars)).map (fun b => b.low)) = 5 := by
    rw [htl, c8bars, List.map_replicate]
    exact minOf_replicate 251 5
  obtain ⟨-, -, h3⟩ := c8_week52_formula c8info c8bars hlen
  rw [h3 (by rw [hmax, hmin]; norm_num), hmax, hmin]
  have hcp : c8info.current_price.getD (lastClose (takeLast 252 (sortByDate c8bars))) = 7 :=
    rfl
  rw [hcp]
  norm_num

/-! ### C9 — pipeline narrowing -/

/-- Each stage body emits at most `output_count` symbols. -/
theorem stageOutput_length_le (env : PipelineEnv) (cfg : StageConfig) (u : List ℕ) :
    (stageOutput env cfg u).length ≤ cfg.output_count := by
  obtain ⟨sid, mcl, oc⟩ := cfg
  cases sid <;>
    simp only [stageOutput, List.length_map] <;>
    exact List.length_take_le _ _

/-- The first record produced with an inherited universe reads exactly
that universe. -/
theorem runStages_head_input (env : PipelineEnv) (stages : List StageConfig)
    (cur : List ℕ) (r : StageResult) (rs : List StageResult)
    (h : (runStages env stages false cur).1 = r :: rs) : r.input_symbols = cur := by
  cases stages with
  | nil => simp [runStages] at h
  | cons cfg rest =>
    rw [runStages] at h
    by_cases hc : cur.isEmpty
    · simp [hc] at h
    · simp only [hc, Bool.not_false, Bool.and_false, Bool.true_and, Bool.false_eq_true,
        if_false, if_neg] at h
      have := (List.cons.injEq _ _ _ _).mp h
      rw [← this.1]

/-- Every emitted stage record respects its configured `output_count`. -/
theorem runStages_results (env : PipelineEnv) :
    ∀ (stages : List StageConfig) (b : Bool) (cur : List ℕ),
      ∀ r ∈ (runStages env stages b cur).1,
        r.output_count_actual = r.output_symbols.length ∧
          r.output_symbols.length ≤ r.configured_output := by
  intro stages
  induction stages with
  | nil => intro b cur r hr; simp [runStages] at hr
  | cons cfg rest ih =>
    intro b cur r hr
    rw [runStages] at hr
    by_cases hc : !b && cur.isEmpty
    · rw [if_pos hc] at hr
      simp at hr
    · rw [if_neg (by simpa using hc)] at hr
      rcases List.mem_cons.mp hr with h | h
      · subst h
        exact ⟨rfl, stageOutput_length_le _ _ _⟩
      · exact ih false _ r h

/-- Consecutive stage records chain: each later stage's input is the
previous stage's output. -/
theorem runStages_chain (env : PipelineEnv) :
    ∀ (stages : List StageConfig) (b : Bool) (cur : List ℕ),
      List.Chain' (fun a b => b.input_symbols = a.output_symbols)
        (runStages env stages b cur).1 := by
  intro stages
  induction stages with
  | nil => intro b cur; simp [runStages]
  | cons cfg rest ih =>
    intro b cur
    rw [runStages]
    by_cases hc : !b && cur.isEmpty
    · rw [if_pos hc]
      simp
    · rw [if_neg (by simpa using hc)]
      rw [List.chain'_cons']
      refine ⟨?_, ih false _⟩
      intro y hy
      cases hrs : (runStages env rest false
          (stageOutput env cfg (if b = true then env.topByMarketCap cfg.market_cap_limit
            else cur))).1 with
      | nil => rw [hrs] at hy; simp at hy
      | cons r rs =>
        rw [hrs] at hy
        simp only [List.head?_cons, Option.mem_def, Option.some.injEq] at hy
        subst hy
        exact runStages_head_input env rest _ r rs hrs

/-- The final stock list is bounded by `m` when every stage's
`output_count` is `m` and the incoming universe already is. -/
theorem runStages_final (env : PipelineEnv) (m : ℕ) :
    ∀ (stages : List StageConfig) (b : Bool) (cur : List ℕ),
      (∀ cfg ∈ stages, cfg.output_count = m) → cur.length ≤ m →
        (runStages env stages b cur).2.length ≤ m := by
  intro stages
  induction stages with
  | nil => intro b cur _ hcur; simpa [runStages] using hcur
  | cons cfg rest ih =>
    intro b cur hm hcur
    rw [runStages]
    by_cases hc : !b && cur.isEmpty
    · rw [if_pos hc]
      exact hcur
    · rw [if_neg (by simpa using hc)]
      refine ih false _ (fun cfg' h' => hm cfg' (by simp [h'])) ?_
      calc (stageOutput env cfg _).length
          ≤ cfg.output_count := stageOutput_length_le _ _ _
        _ = m := hm cfg (by simp)

/-- C9: in every executed pipeline each stage record emits at most its
configured `output_count` symbols; each stage after the first takes
exactly the previous stage's emitted symbols as its input universe
(`Chain'`); and when every stage is configured with `output_count = m`
the final stock list has at most `m` elements. -/
theorem c9_pipeline (env : PipelineEnv) (stages : List StageConfig) (m : ℕ)
    (hm : ∀ cfg ∈ stages, cfg.output_count = m) :
    (∀ r ∈ (execute_pipeline env stages).1,
        r.output_count_actual = r.output_symbols.length ∧
          r.output_count_actual ≤ r.configured_output) ∧
      List.Chain' (fun a b => b.input_symbols = a.output_symbols)
        (execute_pipeline env stages).1 ∧
      (execute_pipeline env stages).2.length ≤ m := by
  refine ⟨?_, runStages_chain env stages true [], ?_⟩
  · intro r hr
    obtain ⟨h1, h2⟩ := runStages_results env stages true [] r hr
    exact ⟨h1, h1 ▸ h2⟩
  · exact runStages_final env m stages true [] hm (by simp)

/-- C9 witness: the theorem applied to a concrete two-stage pipeline
with `output_count = 1` everywhere. -/
theorem c9_pipeline_witness :
    (∀ cfg ∈ c9stages, cfg.output_count = 1) ∧
      ((∀ r ∈ (execute_pipeline c9env c9stages).1,
          r.output_count_actual = r.output_symbols.length ∧
            r.output_count_actual ≤ r.configured_output) ∧
        List.Chain' (fun a b => b.input_symbols = a.output_symbols)
          (execute_pipeline c9env c9stages).1 ∧
        (execute_pipeline c9env c9stages).2.length ≤ 1) :=
  ⟨by decide, c9_pipeline c9env c9stages 1 (by decide)⟩

/-! ### C10 — total momentum score bounds -/

/-- `pyClip01` lands in the unit interval. -/
theorem pyClip01_bounds (x : Option ℚ) : 0 ≤ pyClip01 x ∧ pyClip01 x ≤ 1 := by
  cases x with
  | none => norm_num [pyClip01]
  | some v =>
    refine ⟨le_max_left 0 _, ?_⟩
    rw [pyClip01]
    exact max_le (by norm_num) (min_le_left 1 v)

/-- `pyClip01R` lands in the unit interval. -/
theorem pyClip01R_bounds (x : Option ℝ) : 0 ≤ pyClip01R x ∧ pyClip01R x ≤ 1 := by
  cases x with
  | none => norm_num [pyClip01R]
  | some v =>
    refine ⟨le_max_left 0 _, ?_⟩
    rw [pyClip01R]
    exact max_le (by norm_num) (min_le_left 1 v)

/-- The full branch of `calculate_quality_momentum_score`, written out
(the `let`-chain of the source, inlined). -/
theorem qm_eq (h : HistData) (hlen : ¬ h.close.length < 120) :
    calculate_quality_momentum_score h =
      { total_score :=
          (3 / 10) * (pyClip01 ((calculate_raw_momentum h.close momentum_6m_lookback).map
              (fun v => (v + 1 / 2) / 1)) : ℝ) +
            (1 / 5) * (pyClip01 ((calculate_raw_momentum h.close momentum_3m_lookback).map
              (fun v => (v + 3 / 10) / (6 / 10))) : ℝ) +
            (1 / 4) * (pyClip01 ((calculate_smooth_momentum h.close 120).map
              (fun v => (v + 3 / 10) / (6 / 10))) : ℝ) +
            (3 / 20) * pyClip01R ((calculate_volatility_adjusted_momentum
              (pctChangeDropna h.close) 60).map (fun v => (v + 1) / 2)) +
            (1 / 20) * ((if 60 ≤ (pctChangeDropna h.close).length then
              (((takeLast 60 (pctChangeDropna h.close)).countP (fun r => decide (0 < r)) : ℚ) /
                ((takeLast 60 (pctChangeDropna h.close)).length : ℚ))
              else 0 : ℚ) : ℝ) +
            (1 / 20) * ((if pygt (some ((h.close.getLast?).getD 0)) (smaLast 20 h.close) &&
                  pygt (smaLast 20 h.close) (smaLast 50 h.close) then 1
                else if pygt (some ((h.close.getLast?).getD 0)) (smaLast 20 h.close) ||
                  pygt (some ((h.close.getLast?).getD 0)) (smaLast 50 h.close) then 1 / 2
                else 0 : ℚ) : ℝ)
        raw_momentum_6m := calculate_raw_momentum h.close momentum_6m_lookback
        raw_momentum_3m := calculate_raw_momentum h.close momentum_3m_lookback
        raw_momentum_1m := calculate_raw_momentum h.close momentum_1m_lookback
        volatility_adjusted := calculate_volatility_adjusted_momentum
          (pctChangeDropna h.close) 60
        smooth_momentum := calculate_smooth_momentum h.close 120
        consistency_score := if 60 ≤ (pctChangeDropna h.close).length then
            (((takeLast 60 (pctChangeDropna h.close)).countP (fun r => decide (0 < r)) : ℚ) /
              ((takeLast 60 (pctChangeDropna h.close)).length : ℚ))
          else 0
        trend_strength := if pygt (some ((h.close.getLast?).getD 0)) (smaLast 20 h.close) &&
              pygt (smaLast 20 h.close) (smaLast 50 h.close) then 1
            else if pygt (some ((h.close.getLast?).getD 0)) (smaLast 20 h.close) ||
              pygt (some ((h.close.getLast?).getD 0)) (smaLast 50 h.close) then 1 / 2
            else 0 } := by
  rw [calculate_quality_momentum_score, if_neg hlen]

/-- The consistency sub-score always lies in the unit interval. -/
theorem consistency_bounds (r : List ℚ) :
    0 ≤ (if 60 ≤ r.length then
        (((takeLast 60 r).countP (fun x => decide (0 < x)) : ℚ) /
          ((takeLast 60 r).length : ℚ))
      else 0) ∧
      (if 60 ≤ r.length then
        (((takeLast 60 r).countP (fun x => decide (0 < x)) : ℚ) /
          ((takeLast 60 r).length : ℚ))
      else 0) ≤ 1 := by
  by_cases h60 : 60 ≤ r.length
  · have hlen : (takeLast 60 r).length = 60 := by
      rw [takeLast_length]
      omega
    have hcount : (takeLast 60 r).countP (fun x => decide (0 < x)) ≤ 60 := by
      calc (takeLast 60 r).countP (fun x => decide (0 < x))
          ≤ (takeLast 60 r).length := List.countP_le_length _
        _ = 60 := hlen
    rw [if_pos h60, hlen]
    constructor
    · positivity
    · rw [div_le_one (by norm_num)]
      exact_mod_cast hcount
  · rw [if_neg h60]
    norm_num

/-- The trend sub-score is one of `0`, `1/2`, `1`. -/
theorem trend_bounds (c : Option ℚ) (s t : Option ℚ) :
    0 ≤ (if pygt c s && pygt s t then (1 : ℚ)
        else if pygt c s || pygt c t then 1 / 2 else 0) ∧
      (if pygt c s && pygt s t then (1 : ℚ)
        else if pygt c s || pygt c t then 1 / 2 else 0) ≤ 1 := by
  split_ifs <;> norm_num

/-- A weighted sum with the source's six weights of unit-interval scores
stays in the unit interval. -/
theorem weighted_total_bounds (a b c : ℚ) (d : ℝ) (e f : ℚ)
    (ha : 0 ≤ a ∧ a ≤ 1) (hb : 0 ≤ b ∧ b ≤ 1) (hc : 0 ≤ c ∧ c ≤ 1)
    (hd : 0 ≤ d ∧ d ≤ 1) (he : 0 ≤ e ∧ e ≤ 1) (hf : 0 ≤ f ∧ f ≤ 1) :
    0 ≤ (3 / 10) * (a : ℝ) + (1 / 5) * (b : ℝ) + (1 / 4) * (c : ℝ) +
        (3 / 20) * d + (1 / 20) * (e : ℝ) + (1 / 20) * (f : ℝ) ∧
      (3 / 10) * (a : ℝ) + (1 / 5) * (b : ℝ) + (1 / 4) * (c : ℝ) +
        (3 / 20) * d + (1 / 20) * (e : ℝ) + (1 / 20) * (f : ℝ) ≤ 1 := by
  have ha' : (0 : ℝ) ≤ (a : ℝ) ∧ (a : ℝ) ≤ 1 :=
    ⟨by exact_mod_cast ha.1, by exact_mod_cast ha.2⟩
  have hb' : (0 : ℝ) ≤ (b : ℝ) ∧ (b : ℝ) ≤ 1 :=
    ⟨by exact_mod_cast hb.1, by exact_mod_cast hb.2⟩
  have hc' : (0 : ℝ) ≤ (c : ℝ) ∧ (c : ℝ) ≤ 1 :=
    ⟨by exact_mod_cast hc.1, by exact_mod_cast hc.2⟩
  have he' : (0 : ℝ) ≤ (e : ℝ) ∧ (e : ℝ) ≤ 1 :=
    ⟨by exact_mod_cast he.1, by exact_mod_cast he.2⟩
  have hf' : (0 : ℝ) ≤ (f : ℝ) ∧ (f : ℝ) ≤ 1 :=
    ⟨by exact_mod_cast hf.1, by exact_mod_cast hf.2⟩
  constructor
  · nlinarith [ha'.1, hb'.1, hc'.1, hd.1, he'.1, hf'.1]
  · nlinarith [ha'.2, hb'.2, hc'.2, hd.2, he'.2, hf'.2]

/-- C10: for every input price series the produced `total_score` lies in
`[0, 1]`: the six normalized sub-scores each lie in `[0, 1]` and the
fixed weights `0.3 + 0.2 + 0.25 + 0.15 + 0.05 + 0.05 = 1`. -/
theorem c10_total_score_in_unit (h : HistData) :
    0 ≤ (calculate_quality_momentum_score h).total_score ∧
      (calculate_quality_momentum_score h).total_score ≤ 1 := by
  by_cases hlen : h.close.length < 120
  · rw [calculate_quality_momentum_score, if_pos hlen]
    norm_num [zeroQM]
  · rw [qm_eq h hlen]
    exact weighted_total_bounds _ _ _ _ _ _
      (pyClip01_bounds _) (pyClip01_bounds _) (pyClip01_bounds _)
      (pyClip01R_bounds _) (consistency_bounds _) (trend_bounds _ _ _)

/-! ### C6 — flat 260-day series -/

/-- The flat series has 260 entries, defeating the insufficiency
guard. -/
theorem flat_len : ¬ flatHist.close.length < 120 := by
  rw [flatHist]
  simp

/-- Daily returns of the flat series: 259 zeros. -/
theorem flat_returns : pctChangeDropna flatHist.close = List.replicate 259 0 := by
  rw [flatHist]
  exact pctChangeDropna_replicate 260 100

/-- All three raw momenta of the flat series vanish. -/
theorem flat_raw :
    calculate_raw_momentum flatHist.close momentum_6m_lookback = some 0 ∧
      calculate_raw_momentum flatHist.close momentum_3m_lookback = some 0 ∧
      calculate_raw_momentum flatHist.close momentum_1m_lookback = some 0 := by
  rw [flatHist, momentum_6m_lookback, momentum_3m_lookback, momentum_1m_lookback]
  exact ⟨raw_momentum_replicate 260 100 100 (by norm_num),
    raw_momentum_replicate 260 50 100 (by norm_num),
    raw_momentum_replicate 260 15 100 (by norm_num)⟩

/-- The volatility-adjusted momentum of the flat series is `0` through
the zero-deviation branch. -/
theorem flat_vol :
    calculate_volatility_adjusted_momentum (pctChangeDropna flatHist.close) 60 = some 0 := by
  rw [flat_returns, calculate_volatility_adjusted_momentum,
    if_neg (by rw [List.length_replicate]; norm_num), takeLast_replicate]
  have hm : min 60 259 = 60 := by norm_num
  rw [hm, if_pos (sampleVar_replicate 60 0)]

/-- The smooth momentum of the flat series vanishes (zero raw momentum
times any consistency fraction). -/
theorem flat_smooth : calculate_smooth_momentum flatHist.close 120 = some 0 := by
  rw [calculate_smooth_momentum,
    if_neg (by rw [flatHist]; simp), flatHist]
  rw [raw_momentum_replicate 260 120 100 (by norm_num)]
  simp

/-- The consistency score of the flat series is `0`: no strictly positive
return days. -/
theorem flat_consistency :
    (if 60 ≤ (pctChangeDropna flatHist.close).length then
        (((takeLast 60 (pctChangeDropna flatHist.close)).countP (fun r => decide (0 < r)) : ℚ) /
          ((takeLast 60 (pctChangeDropna flatHist.close)).length : ℚ))
      else 0) = 0 := by
  rw [flat_returns]
  rw [if_pos (by rw [List.length_replicate]; norm_num)]
  rw [takeLast_replicate]
  have hm : min 60 259 = 60 := by norm_num
  rw [hm, countP_replicate]
  norm_num

/-- The trend strength of the flat series is `0`: the price equals both
moving averages, and the source's strict comparisons fail. -/
theorem flat_trend :
    (if pygt (some ((flatHist.close.getLast?).getD 0)) (smaLast 20 flatHist.close) &&
          pygt (smaLast 20 flatHist.close) (smaLast 50 flatHist.close) then (1 : ℚ)
        else if pygt (some ((flatHist.close.getLast?).getD 0)) (smaLast 20 flatHist.close) ||
          pygt (some ((flatHist.close.getLast?).getD 0)) (smaLast 50 flatHist.close) then 1 / 2
        else 0) = 0 := by
  have hlast : (flatHist.close.getLast?).getD 0 = 100 := by
    rw [flatHist]
    rw [getLast?_replicate 259 (100 : ℚ)]
    rfl
  have hsma20 : smaLast 20 flatHist.close = some 100 := by
    rw [flatHist, smaLast, if_neg (by rw [List.length_replicate]; norm_num), takeLast_replicate]
    have hm : min 20 260 = 20 := by norm_num
    rw [hm, mean_replicate 20 100 (by norm_num)]
  have hsma50 : smaLast 50 flatHist.close = some 100 := by
    rw [flatHist, smaLast, if_neg (by rw [List.length_replicate]; norm_num), takeLast_replicate]
    have hm : min 50 260 = 50 := by norm_num
    rw [hm, mean_replicate 50 100 (by norm_num)]
  rw [hlast, hsma20, hsma50]
  have hgt : pygt (some (100 : ℚ)) (some (100 : ℚ)) = false := by
    rw [pygt]
    simp
  rw [hgt]
  simp

/-- The full result of the quality-momentum computation on the flat
series, field by field. -/
theorem flat_qm_fields :
    (calculate_quality_momentum_score flatHist).total_score = 9 / 20 ∧
      (calculate_quality_momentum_score flatHist).raw_momentum_6m = some 0 ∧
      (calculate_quality_momentum_score flatHist).raw_momentum_3m = some 0 ∧
      (calculate_quality_momentum_score flatHist).raw_momentum_1m = some 0 ∧
      (calculate_quality_momentum_score flatHist).volatility_adjusted = some 0 ∧
      (calculate_quality_momentum_score flatHist).smooth_momentum = some 0 ∧
      (calculate_quality_momentum_score flatHist).consistency_score = 0 ∧
      (calculate_quality_momentum_score flatHist).trend_strength = 0 := by
  rw [qm_eq flatHist flat_len]
  obtain ⟨h6, h3, h1⟩ := flat_raw
  refine ⟨?_, h6, h3, h1, flat_vol, flat_smooth, flat_consistency, flat_trend⟩
  dsimp only
  rw [h6, h3, flat_smooth, flat_vol, flat_consistency, flat_trend]
  have p6 : pyClip01 (Option.map (fun v => (v + 1 / 2) / 1) (some (0 : ℚ))) = 1 / 2 := by
    rw [Option.map_some', pyClip01]
    norm_num
  have p3 : pyClip01 (Option.map (fun v => (v + 3 / 10) / (6 / 10)) (some (0 : ℚ))) = 1 / 2 := by
    rw [Option.map_some', pyClip01]
    norm_num
  have pva : pyClip01R (Option.map (fun v => (v + 1) / 2) (some (0 : ℝ))) = 1 / 2 := by
    rw [Option.map_some', pyClip01R]
    norm_num
  rw [p6, p3, pva]
  push_cast
  norm_num

/-- C6, counterexample: on the flat 260-day series `total_score` is
`0.45`, not the claimed `0.5` — consistency and trend are 0 (not a
midpoint), so the weighted sum is `0.9 × 0.5 = 0.45`. -/
theorem c6_counterexample :
    (calculate_quality_momentum_score flatHist).total_score = 9 / 20 ∧
      (9 / 20 : ℝ) ≠ 1 / 2 := by
  refine ⟨flat_qm_fields.1, by norm_num⟩

/-- C6, amended: for the flat 260-day series at price 100 the raw
momentum sub-scores are 0, volatility-adjusted 0, smooth 0, consistency
0, trend 0, and `total_score` is exactly `0.45`: the four symmetric
normalized sub-scores map to midpoint `1/2` with weights summing to
`0.9`, while consistency and trend enter unnormalized as `0` under
weights `0.05 + 0.05`. -/
theorem c6_amended :
    (calculate_quality_momentum_score flatHist).raw_momentum_6m = some 0 ∧
      (calculate_quality_momentum_score flatHist).raw_momentum_3m = some 0 ∧
      (calculate_quality_momentum_score flatHist).raw_momentum_1m = some 0 ∧
      (calculate_quality_momentum_score flatHist).volatility_adjusted = some 0 ∧
      (calculate_quality_momentum_score flatHist).smooth_momentum = some 0 ∧
      (calculate_quality_momentum_score flatHist).consistency_score = 0 ∧
      (calculate_quality_momentum_score flatHist).trend_strength = 0 ∧
      (calculate_quality_momentum_score flatHist).total_score = 9 / 20 := by
  obtain ⟨ht, h6, h3, h1, hv, hs, hc, htr⟩ := flat_qm_fields
  exact ⟨h6, h3, h1, hv, hs, hc, htr, ht⟩
